import Mathlib

/-!
Shallow embedding of the key-transparency epoch-commit protocol: the
committee configuration (config/src/lib.rs), the protocol messages
(messages/src/publish.rs, messages/src/sync.rs, messages/src/error.rs),
the witness publish handler (witness/src/publish_handler.rs), the vote
aggregator (idp/src/aggregator.rs) and the certificate synchronizer
(idp/src/synchronizer.rs).

Modelling conventions:
- Machine integers (u32 voting powers, u64 sequence numbers) are modelled
  as unbounded naturals; no protocol operation approaches the word bounds
  for any configuration the repository documents.
- The cryptographic primitives (SHA-512 hashing, Ed25519 single and batch
  signatures) and the VKD audit-proof checker are external black boxes in
  the repository; they are modelled symbolically: a digest records the
  exact byte stream that was hashed, a signature records the digest signed
  and the signer, and an audit proof records the pair of roots it links.
  The functions below reproduce, byte for byte, which data the source
  feeds into those primitives.
- Error payloads that are plain diagnostic strings in the source are
  dropped from the corresponding error constructors.
- The BTreeMap and HashMap containers of the source are modelled as
  association lists, HashSet as a list of keys.
-/

namespace KeyTransparency

/-- Public keys are opaque 32-byte identities (crypto/src/lib.rs); modelled
as an opaque natural. -/
abbrev PublicKey := Nat

/-- Roots are opaque 32-byte VKD commitments (messages/src/lib.rs); only
their byte content matters to the protocol. -/
structure Root where
  bytes : List Nat
deriving DecidableEq

/-- Hash digests, 32 bytes in the source (crypto/src/lib.rs). The symbolic
digest records the byte stream fed to the hasher. -/
structure Digest where
  bytes : List Nat
deriving DecidableEq

/-- Digest::default in the source is the all-zero 32-byte digest. -/
def Digest.defaultDigest : Digest := ⟨List.replicate 32 0⟩

/-- Little-endian 8-byte encoding, as produced by u64::to_le_bytes. -/
def toLE8 (n : Nat) : List Nat :=
  [n % 256, n / 256 % 256, n / 256 ^ 2 % 256, n / 256 ^ 3 % 256,
   n / 256 ^ 4 % 256, n / 256 ^ 5 % 256, n / 256 ^ 6 % 256, n / 256 ^ 7 % 256]

/-- Symbolic model of the SHA-512 hash truncated to 32 bytes
(PublishMessage::digest in messages/src/publish.rs): the digest is
identified by the byte stream that was hashed. -/
def sha512trunc (input : List Nat) : Digest := ⟨input⟩

/-- A keypair (crypto/src/lib.rs); only the public part is protocol
visible, the secret is the capability to sign as that public key. -/
structure KeyPair where
  public : PublicKey
deriving DecidableEq

/-- Symbolic Ed25519 signature: either the all-zero default signature
(Signature::default, which verifies for no digest) or a signature that
records the signed digest and the signer. -/
inductive Signature where
  | zero
  | signed (digest : Digest) (signer : PublicKey)
deriving DecidableEq

/-- Signature::new in crypto/src/lib.rs: sign a digest with a keypair. -/
def Signature.new (value : Digest) (secret : KeyPair) : Signature :=
  .signed value secret.public

/-- Signature::verify in crypto/src/lib.rs: a single signature check over
a digest and a public key. -/
def Signature.verify : Signature → Digest → PublicKey → Bool
  | .zero, _, _ => false
  | .signed d signer, value, author => decide (d = value ∧ signer = author)

/-- Signature::verify_batch in crypto/src/lib.rs: batch verification of
many signatures over the same digest. -/
def Signature.verify_batch (value : Digest) (votes : List (PublicKey × Signature)) : Bool :=
  votes.all fun e => e.2.verify value e.1

/-- The public information of one witness (config/src/lib.rs). The socket
address is modelled as an opaque natural. -/
structure Witness where
  voting_power : Nat
  address : Nat
deriving DecidableEq

/-- The public committee information (config/src/lib.rs). The witnesses
BTreeMap is modelled as an association list; `idp` is the IdP public key
(the address of the IdP plays no role in the modelled components). -/
structure Committee where
  idp : PublicKey
  witnesses : List (PublicKey × Witness)
deriving DecidableEq

/-- First-match lookup in the witnesses association list (BTreeMap::get). -/
def lookupWitness : List (PublicKey × Witness) → PublicKey → Option Witness
  | [], _ => none
  | (k, w) :: rest, name => if k = name then some w else lookupWitness rest name

/-- The voting power carried by an optional lookup result (the
map_or_else of Committee::voting_power). -/
def powerOf : Option Witness → Nat
  | some w => w.voting_power
  | none => 0

/-- Committee::voting_power: the voting power of a witness, zero for
unknown public keys. -/
def Committee.voting_power (c : Committee) (name : PublicKey) : Nat :=
  powerOf (lookupWitness c.witnesses name)

/-- Total voting power of the committee: the sum over all witnesses, as
computed inside quorum_threshold and validity_threshold. -/
def totalPower (ws : List (PublicKey × Witness)) : Nat :=
  (ws.map fun e => e.2.voting_power).sum

/-- Committee::quorum_threshold: 2 * total / 3 + 1 in integer division. -/
def Committee.quorum_threshold (c : Committee) : Nat :=
  2 * totalPower c.witnesses / 3 + 1

/-- Committee::validity_threshold: (total + 2) / 3 in integer division. -/
def Committee.validity_threshold (c : Committee) : Nat :=
  (totalPower c.witnesses + 2) / 3

/-- Committee::witness_address: the network address of a witness. -/
def Committee.witness_address (c : Committee) (name : PublicKey) : Option Nat :=
  match lookupWitness c.witnesses name with
  | some w => some w.address
  | none => none

/-- Errors raised when parsing and verifying protocol messages
(messages/src/error.rs); diagnostic string payloads are dropped. The
misspelling of the proof-verification constructor is from the source. -/
inductive MessageError where
  | MalformedNotificationId (id : Digest)
  | InvalidSignature
  | UnknownWitness (name : PublicKey)
  | WitnessReuse (name : PublicKey)
  | CertificateRequiresQuorum
  | SerializationError
  | PoofVerificationFailed
  | UpdateRequestTooShort
deriving DecidableEq

/-- Errors raised by a witness when processing IdP messages
(messages/src/error.rs). -/
inductive WitnessError where
  | MessageError (e : MessageError)
  | UnexpectedSequenceNumber (expected got : Nat)
  | ConflictingNotification (lock received : Root)
  | MissingEarlierCertificates (s : Nat)
deriving DecidableEq

/-- Errors raised by the IdP (messages/src/error.rs). -/
inductive IdpError where
  | MessageError (e : MessageError)
  | WitnessError (e : WitnessError)
  | UnexpectedProtocolMessage
  | UnexpectedVote (expected received : Root)
deriving DecidableEq

/-- Symbolic VKD append-only proof: the black-box audit proof records the
pair of roots it connects (the AppendOnlyProof of the external vkd crate). -/
structure Proof where
  startRoot : Root
  endRoot : Root
deriving DecidableEq

/-- Symbolic model of vkd::auditor::audit_verify, called with the two-root
vector [previous_root, new_root]: the black-box checker accepts exactly
the root pair the proof was produced for. -/
def audit_verify (hashes : List Root) (proof : Proof) : Bool :=
  decide (hashes = [proof.startRoot, proof.endRoot])

/-- PublishMessage::digest (messages/src/publish.rs): SHA-512 over the
root bytes followed by the little-endian 8-byte sequence number,
truncated to 32 bytes. All three publish messages share this digest. -/
def publishDigest (root : Root) (sequence_number : Nat) : Digest :=
  sha512trunc (root.bytes ++ toLE8 sequence_number)

/-- A publish notification sent by the IdP to the witnesses
(messages/src/publish.rs). -/
structure PublishNotification where
  root : Root
  proof : Proof
  sequence_number : Nat
  id : Digest
  signature : Signature
deriving DecidableEq

/-- The PublishMessage trait digest, instantiated for notifications. -/
def PublishNotification.digest (n : PublishNotification) : Digest :=
  publishDigest n.root n.sequence_number

/-- PublishNotification::new: build the notification with default id and
signature, set the id to the message digest, then sign the id. -/
def PublishNotification.new (root : Root) (proof : Proof)
    (sequence_number : Nat) (keypair : KeyPair) : PublishNotification :=
  let notification : PublishNotification :=
    { root := root, proof := proof, sequence_number := sequence_number,
      id := Digest.defaultDigest, signature := Signature.zero }
  let id := notification.digest
  { notification with id := id, signature := Signature.new id keypair }

/-- PublishNotification::verify: well-formed id, valid IdP signature over
the id, and an audit proof connecting the previous root to the new one. -/
def PublishNotification.verify (n : PublishNotification) (committee : Committee)
    (previous_root : Root) : Except MessageError Unit :=
  if n.digest = n.id then
    if n.signature.verify n.id committee.idp then
      if audit_verify [previous_root, n.root] n.proof then .ok ()
      else .error .PoofVerificationFailed
    else .error .InvalidSignature
  else .error (.MalformedNotificationId n.id)

/-- A vote for a publish notification (messages/src/publish.rs). -/
structure PublishVote where
  root : Root
  sequence_number : Nat
  author : PublicKey
  signature : Signature
deriving DecidableEq

/-- The PublishMessage trait digest, instantiated for votes. -/
def PublishVote.digest (v : PublishVote) : Digest :=
  publishDigest v.root v.sequence_number

/-- PublishVote::new: copy the root and sequence number from the
notification and sign the vote digest. -/
def PublishVote.new (notification : PublishNotification) (keypair : KeyPair) :
    PublishVote :=
  let vote : PublishVote :=
    { root := notification.root, sequence_number := notification.sequence_number,
      author := keypair.public, signature := Signature.zero }
  { vote with signature := Signature.new vote.digest keypair }

/-- PublishVote::verify: the author has voting rights and the signature
checks over the vote digest. -/
def PublishVote.verify (v : PublishVote) (committee : Committee) :
    Except MessageError Unit :=
  if committee.voting_power v.author > 0 then
    if v.signature.verify v.digest v.author then .ok ()
    else .error .InvalidSignature
  else .error (.UnknownWitness v.author)

/-- A certificate over a publish notification (messages/src/publish.rs). -/
structure PublishCertificate where
  root : Root
  sequence_number : Nat
  votes : List (PublicKey × Signature)
deriving DecidableEq

/-- The PublishMessage trait digest, instantiated for certificates. -/
def PublishCertificate.digest (c : PublishCertificate) : Digest :=
  publishDigest c.root c.sequence_number

/-- The vote-scanning loop of PublishCertificate::verify: reject duplicate
authors and unknown witnesses while accumulating the voting power. -/
def checkVotes (committee : Committee) :
    List (PublicKey × Signature) → List PublicKey → Nat → Except MessageError Nat
  | [], _, weight => .ok weight
  | (name, _) :: rest, used, weight =>
    if name ∈ used then .error (.WitnessReuse name)
    else if committee.voting_power name > 0 then
      checkVotes committee rest (name :: used) (weight + committee.voting_power name)
    else .error (.UnknownWitness name)

/-- PublishCertificate::verify: no author reuse, all authors known, quorum
of voting power, and batch signature verification over the digest. -/
def PublishCertificate.verify (c : PublishCertificate) (committee : Committee) :
    Except MessageError Unit :=
  match checkVotes committee c.votes [] 0 with
  | .error e => .error e
  | .ok weight =>
    if weight ≥ committee.quorum_threshold then
      if Signature.verify_batch c.digest c.votes then .ok ()
      else .error .InvalidSignature
    else .error .CertificateRequiresQuorum

/-- The safety-critical state of a witness (messages/src/sync.rs). -/
structure State where
  root : Root
  sequence_number : Nat
  lock : Option PublishVote
deriving DecidableEq

instance {ε α : Type} [DecidableEq ε] [DecidableEq α] : DecidableEq (Except ε α) :=
  fun a b =>
    match a, b with
    | .ok x, .ok y => decidable_of_iff (x = y) (by simp)
    | .error x, .error y => decidable_of_iff (x = y) (by simp)
    | .ok _, .error _ => isFalse (by simp)
    | .error _, .ok _ => isFalse (by simp)

/-- Replies sent by a witness to the IdP (messages/src/lib.rs). -/
inductive WitnessToIdPMessage where
  | PublishVote (result : Except WitnessError PublishVote)
  | State (result : Except WitnessError State)
  | PublishCertificateResponse (bytes : List Nat)
deriving DecidableEq

/-- PublishHandler::make_vote (witness/src/publish_handler.rs): verify the
notification, check the sequence number, then honour or report the lock. -/
def make_vote (keypair : KeyPair) (committee : Committee) (state : State)
    (notification : PublishNotification) : Except WitnessError PublishVote :=
  match notification.verify committee state.root with
  | .error e => .error (.MessageError e)
  | .ok () =>
    if state.sequence_number = notification.sequence_number then
      match state.lock with
      | some vote =>
        if vote.root = notification.root then .ok vote
        else .error (.ConflictingNotification vote.root notification.root)
      | none => .ok (PublishVote.new notification keypair)
    else
      .error (.UnexpectedSequenceNumber state.sequence_number
        notification.sequence_number)

/-- PublishHandler::process_certificate: verify the certificate and ensure
no earlier certificate is missing. -/
def process_certificate (committee : Committee) (state : State)
    (certificate : PublishCertificate) : Except WitnessError Unit :=
  match certificate.verify committee with
  | .error e => .error (.MessageError e)
  | .ok () =>
    if state.sequence_number ≥ certificate.sequence_number then .ok ()
    else .error (.MissingEarlierCertificates state.sequence_number)

/-- The notification branch of PublishHandler::run: on success install the
lock and reply with the vote, on failure reply with the error. Returns the
new state and the reply. -/
def handleNotification (keypair : KeyPair) (committee : Committee) (state : State)
    (notification : PublishNotification) : State × WitnessToIdPMessage :=
  match make_vote keypair committee state notification with
  | .error e => (state, .PublishVote (.error e))
  | .ok vote => ({ state with lock := some vote }, .PublishVote (.ok vote))

/-- The certificate branch of PublishHandler::run in the default build
(without the witness-only-benchmark feature, so the root is updated).
Returns the new state, the reply, and the sequence number forwarded to the
SyncHelper together with the serialized certificate (none if nothing is
forwarded). -/
def handleCertificate (committee : Committee) (state : State)
    (certificate : PublishCertificate) :
    State × WitnessToIdPMessage × Option Nat :=
  match process_certificate committee state certificate with
  | .error e => (state, .State (.error e), none)
  | .ok () =>
    if state.sequence_number = certificate.sequence_number then
      let state' : State :=
        { root := certificate.root,
          sequence_number := state.sequence_number + 1,
          lock := none }
      (state', .State (.ok state'), some certificate.sequence_number)
    else
      (state, .State (.ok state), none)

/-- The vote aggregator of the IdP (idp/src/aggregator.rs). The HashSet of
used authors is a list of keys, the votes vector keeps insertion order. -/
structure Aggregator where
  committee : Committee
  root : Root
  weight : Nat
  votes : List (PublicKey × Signature)
  used : List PublicKey
deriving DecidableEq

/-- Aggregator::new. -/
def Aggregator.new (committee : Committee) (root : Root) : Aggregator :=
  { committee := committee, root := root, weight := 0, votes := [], used := [] }

/-- Aggregator::reset. -/
def Aggregator.reset (agg : Aggregator) (root : Root) : Aggregator :=
  { agg with root := root, weight := 0, votes := [], used := [] }

/-- Aggregator::append: check the root, the voting rights and author
freshness, insert the author into the used set, verify the vote, then
accumulate; on quorum, zero the weight and emit the certificate. The used
set is mutated before the signature check, exactly as in the source. -/
def Aggregator.append (agg : Aggregator) (vote : PublishVote) :
    Aggregator × Except IdpError (Option PublishCertificate) :=
  let author := vote.author
  let voting_power := agg.committee.voting_power author
  if agg.root = vote.root then
    if voting_power > 0 then
      if author ∈ agg.used then
        (agg, .error (.MessageError (.WitnessReuse author)))
      else
        let agg' := { agg with used := author :: agg.used }
        match vote.verify agg'.committee with
        | .error e => (agg', .error (.MessageError e))
        | .ok () =>
          let votes := agg'.votes ++ [(author, vote.signature)]
          let weight := agg'.weight + voting_power
          if weight ≥ agg'.committee.quorum_threshold then
            ({ agg' with votes := votes, weight := 0 },
             .ok (some { root := vote.root, sequence_number := vote.sequence_number,
                         votes := votes }))
          else
            ({ agg' with votes := votes, weight := weight }, .ok none)
    else (agg, .error (.MessageError (.UnknownWitness author)))
  else (agg, .error (.UnexpectedVote agg.root vote.root))

/-- The state-update part of Aggregator::append. -/
def Aggregator.step (agg : Aggregator) (vote : PublishVote) : Aggregator :=
  (agg.append vote).1

/-- Sequentially absorb a list of votes, keeping only the state. -/
def Aggregator.runVotes (agg : Aggregator) (vs : List PublishVote) : Aggregator :=
  vs.foldl Aggregator.step agg

/-- Whether one append call emits a certificate. -/
def producesCert (agg : Aggregator) (vote : PublishVote) : Bool :=
  match (agg.append vote).2 with
  | .ok (some _) => true
  | _ => false

/-- Sum of the voting powers of the used authors of an aggregator. -/
def usedPower (agg : Aggregator) : Nat :=
  (agg.used.map agg.committee.voting_power).sum

/-- Invariant of the aggregator state machine. The flag records whether a
certificate has already been emitted since the last reset: before the
quorum the weight is bounded by the power of the used authors; afterwards
the used authors retain a full quorum of power beyond the weight. -/
def AggInv (agg : Aggregator) (certified : Bool) : Prop :=
  agg.used.Nodup ∧
  (∀ a ∈ agg.used, 0 < agg.committee.voting_power a) ∧
  (certified = true →
    agg.weight + agg.committee.quorum_threshold ≤ usedPower agg) ∧
  (certified = false → agg.weight ≤ usedPower agg)

/-- Remove every entry with the given key (proof helper relating one
entry of the witness map to the rest). -/
def dropKey (a : PublicKey) : List (PublicKey × Witness) → List (PublicKey × Witness)
  | [] => []
  | (k, w) :: rest => if k = a then dropKey a rest else (k, w) :: dropKey a rest

/-! ### The certificate synchronizer (idp/src/synchronizer.rs) -/

/-- MAX_PENDING_UPDATES in idp/src/synchronizer.rs. -/
def MAX_PENDING_UPDATES : Nat := 100

/-- HashMap::get on the updates_in_progress map. -/
def lookupCounter : List (PublicKey × Nat) → PublicKey → Option Nat
  | [], _ => none
  | (k, n) :: rest, name => if k = name then some n else lookupCounter rest name

/-- Increment the counter of a witness through HashMap::get_mut (no effect
when the key is absent, exactly as in the source). -/
def bumpCounter : List (PublicKey × Nat) → PublicKey → List (PublicKey × Nat)
  | [], _ => []
  | (k, n) :: rest, name =>
    if k = name then (k, n + 1) :: rest else (k, n) :: bumpCounter rest name

/-- Decrement the counter of a witness through HashMap::get_mut (no effect
when the key is absent, exactly as in the source). -/
def decCounter : List (PublicKey × Nat) → PublicKey → List (PublicKey × Nat)
  | [], _ => []
  | (k, n) :: rest, name =>
    if k = name then (k, n - 1) :: rest else (k, n) :: decCounter rest name

/-- The inclusive Rust range witness_seq..=current as a list. -/
def seqRange (lo hi : Nat) : List Nat :=
  List.range' lo (hi + 1 - lo)

/-- The send loop of Synchronizer::update: for every missing sequence
number, consult the per-witness counter (breaking at the bound and
incrementing it when an entry exists, doing neither when it does not),
then read the certificate from storage and issue one reliable send.
Returns the number of sends issued and the updated counter map; the
certificate payloads themselves are opaque storage reads. -/
def updateLoop (target : PublicKey) :
    List Nat → List (PublicKey × Nat) → Nat → Nat × List (PublicKey × Nat)
  | [], counters, sends => (sends, counters)
  | _s :: rest, counters, sends =>
    match lookupCounter counters target with
    | some counter =>
      if counter ≥ MAX_PENDING_UPDATES then (sends, counters)
      else updateLoop target rest (bumpCounter counters target) (sends + 1)
    | none => updateLoop target rest counters (sends + 1)

/-- The mutable state of the Synchronizer task: the committee, the current
IdP sequence number, and the per-witness in-progress counters. -/
structure SyncState where
  committee : Committee
  sequence_number : Nat
  updates_in_progress : List (PublicKey × Nat)
deriving DecidableEq

/-- Synchronizer::update: resolve the target address (none models the
panic on an unknown witness) and run the send loop over the range from the
witness sequence number to the current one. -/
def Synchronizer.update (st : SyncState) (target : PublicKey)
    (witness_sequence_number : Nat) : Option (Nat × SyncState) :=
  match st.committee.witness_address target with
  | none => none
  | some _address =>
    let r := updateLoop target (seqRange witness_sequence_number st.sequence_number)
      st.updates_in_progress 0
    some (r.1, { st with updates_in_progress := r.2 })

/-- The events consumed by the main loop of Synchronizer::run: a sync
trigger, a new certificate to persist, and the resolution of one earlier
update send. -/
inductive SyncEvent where
  | Trigger (target : PublicKey) (witness_seq : Nat)
  | NewCert (s : Nat)
  | Resolved (name : PublicKey)
deriving DecidableEq

/-- One iteration of the select loop of Synchronizer::run, restricted to
its effect on the synchronizer state: a trigger runs update, a new
certificate adopts its sequence number (the storage write is opaque), and
a resolved update handle decrements the counter of its witness. -/
def syncStep (st : SyncState) : SyncEvent → SyncState
  | .Trigger target ws =>
    match Synchronizer.update st target ws with
    | some r => r.2
    | none => st
  | .NewCert s => { st with sequence_number := s }
  | .Resolved name =>
    { st with updates_in_progress := decCounter st.updates_in_progress name }

/-! ### Concrete fixtures used by the witnesses and counterexamples -/

/-- A committee of four witnesses of voting power one; quorum threshold 3. -/
def comm0 : Committee :=
  { idp := 0,
    witnesses := [(1, ⟨1, 11⟩), (2, ⟨1, 12⟩), (3, ⟨1, 13⟩), (4, ⟨1, 14⟩)] }

/-- A committee of five witnesses of voting power one (total 5 = 3·1+1+1). -/
def comm5 : Committee :=
  { idp := 0,
    witnesses := [(1, ⟨1, 11⟩), (2, ⟨1, 12⟩), (3, ⟨1, 13⟩), (4, ⟨1, 14⟩),
                  (5, ⟨1, 15⟩)] }

/-- The initial root of the fixtures. -/
def r0 : Root := ⟨[0]⟩

/-- The root published at sequence 1 in the fixtures. -/
def r1 : Root := ⟨[9]⟩

/-- A conflicting root at sequence 1 in the fixtures. -/
def r2 : Root := ⟨[7]⟩

/-- The IdP keypair of the fixtures. -/
def kpIdp : KeyPair := ⟨0⟩

/-- The notification for root r1 at sequence 1, signed by the IdP. -/
def n1 : PublishNotification := PublishNotification.new r1 ⟨r0, r1⟩ 1 kpIdp

/-- A conflicting notification for root r2 at sequence 1. -/
def n2 : PublishNotification := PublishNotification.new r2 ⟨r0, r2⟩ 1 kpIdp

/-- The vote of witness i for notification n. -/
def voteOf (n : PublishNotification) (i : PublicKey) : PublishVote :=
  PublishVote.new n ⟨i⟩

/-- A certificate over root r1 at sequence 1 carrying three valid votes. -/
def cert1 : PublishCertificate :=
  { root := r1, sequence_number := 1,
    votes := [(1, .signed (publishDigest r1 1) 1),
              (2, .signed (publishDigest r1 1) 2),
              (3, .signed (publishDigest r1 1) 3)] }

/-- A certificate over root r1 at sequence 2 carrying three valid votes. -/
def cert2 : PublishCertificate :=
  { root := r1, sequence_number := 2,
    votes := [(1, .signed (publishDigest r1 2) 1),
              (2, .signed (publishDigest r1 2) 2),
              (3, .signed (publishDigest r1 2) 3)] }

/-- The initial witness state of the fixtures (lock free, sequence 1). -/
def st0 : State := { root := r0, sequence_number := 1, lock := none }

/-- A vote whose signature is the default zero signature and hence fails
individual verification. -/
def zeroSigVote : PublishVote :=
  { root := r1, sequence_number := 1, author := 1, signature := .zero }

/-- A witness state locked on the vote of witness 1 for notification n1. -/
def stLocked1 : State :=
  { root := r0, sequence_number := 1, lock := some (voteOf n1 1) }

/-- A witness state locked on the vote of witness 1 for the conflicting
notification n2. -/
def stLockedConflict : State :=
  { root := r0, sequence_number := 1, lock := some (voteOf n2 1) }

/-- Whether an Except value is a success (Result::is_ok). -/
def exceptIsOk {ε α : Type} : Except ε α → Bool
  | .ok _ => true
  | .error _ => false

/-! ## Theorems -/

/-- Claim C1: a publish certificate that verifies against the committee
and matches the current sequence number commits: the witness adopts the
certificate root, advances the sequence number by one, clears the lock,
forwards the certificate sequence number to the SyncHelper, and replies
with the new state wrapped in State(Ok(..)). -/
theorem certificate_commit (committee : Committee) (s : State)
    (c : PublishCertificate)
    (hverify : c.verify committee = .ok ())
    (hseq : c.sequence_number = s.sequence_number) :
    handleCertificate committee s c =
      ({ root := c.root, sequence_number := s.sequence_number + 1, lock := none },
       .State (.ok { root := c.root, sequence_number := s.sequence_number + 1,
                     lock := none }),
       some c.sequence_number) := by
  simp [handleCertificate, process_certificate, hverify, hseq]

/-- Witness for C1: committing the fixture certificate at sequence 1 from
the initial state yields root r1, sequence 2, no lock. -/
theorem certificate_commit_witness :
    cert1.verify comm0 = .ok () ∧ cert1.sequence_number = st0.sequence_number ∧
    handleCertificate comm0 st0 cert1 =
      ({ root := cert1.root, sequence_number := st0.sequence_number + 1,
         lock := none },
       .State (.ok { root := cert1.root, sequence_number := st0.sequence_number + 1,
                     lock := none }),
       some cert1.sequence_number) :=
  ⟨by decide, by decide, certificate_commit comm0 st0 cert1 (by decide) (by decide)⟩

/-- Claim C6: on a verified certificate from the future the witness
replies State(Err(MissingEarlierCertificates(s.sequence_number))) and
keeps its state; on one from the past it replies State(Ok(s)), keeps its
state, and forwards nothing to the SyncHelper. -/
theorem certificate_sequence_mismatch (committee : Committee) (s : State)
    (c : PublishCertificate) (hverify : c.verify committee = .ok ()) :
    (c.sequence_number > s.sequence_number →
      handleCertificate committee s c =
        (s, .State (.error (.MissingEarlierCertificates s.sequence_number)), none)) ∧
    (c.sequence_number < s.sequence_number →
      handleCertificate committee s c = (s, .State (.ok s), none)) := by
  constructor
  · intro h
    have hge : ¬ s.sequence_number ≥ c.sequence_number := by omega
    simp [handleCertificate, process_certificate, hverify, hge]
  · intro h
    have hge : s.sequence_number ≥ c.sequence_number := by omega
    have hne : ¬ s.sequence_number = c.sequence_number := by omega
    simp [handleCertificate, process_certificate, hverify, hge, hne]

/-- Witness for C6: a certificate at sequence 2 against state at sequence
1 is refused with the sync error; a certificate at sequence 1 against
state at sequence 2 is acknowledged without any change or forwarding. -/
theorem certificate_sequence_mismatch_witness :
    handleCertificate comm0 st0 cert2 =
      (st0, .State (.error (.MissingEarlierCertificates 1)), none) ∧
    handleCertificate comm0 { st0 with sequence_number := 2 } cert1 =
      ({ st0 with sequence_number := 2 },
       .State (.ok { st0 with sequence_number := 2 }), none) :=
  ⟨(certificate_sequence_mismatch comm0 st0 cert2 (by decide)).1 (by decide),
   (certificate_sequence_mismatch comm0 { st0 with sequence_number := 2 } cert1
      (by decide)).2 (by decide)⟩

/-- Claim C2: a verified notification at the current sequence number whose
root differs from the locked vote draws the reply
PublishVote(Err(ConflictingNotification(lock, received))) and leaves the
witness state untouched. -/
theorem conflicting_notification_reply (keypair : KeyPair) (committee : Committee)
    (s : State) (V : PublishVote) (n : PublishNotification)
    (hlock : s.lock = some V)
    (hverify : n.verify committee s.root = .ok ())
    (hseq : n.sequence_number = s.sequence_number)
    (hroot : n.root ≠ V.root) :
    handleNotification keypair committee s n =
      (s, .PublishVote (.error (.ConflictingNotification V.root n.root))) := by
  have hVroot : ¬ V.root = n.root := fun h => hroot h.symm
  simp [handleNotification, make_vote, hverify, hlock, hseq, hVroot]

/-- Witness for C2: the locked-on-n2 fixture state rejects notification n1
with ConflictingNotification(r2, r1) and is unchanged. -/
theorem conflicting_notification_reply_witness :
    handleNotification ⟨1⟩ comm0 stLockedConflict n1 =
      (stLockedConflict,
       .PublishVote (.error (.ConflictingNotification r2 r1))) :=
  conflicting_notification_reply ⟨1⟩ comm0 stLockedConflict (voteOf n2 1) n1
    rfl (by decide) rfl (by decide)

/-- Claim C7: re-delivering the notification a witness is already locked
on returns the identical stored vote and leaves the state exactly as it
was. -/
theorem notification_rebroadcast_idempotent (keypair : KeyPair)
    (committee : Committee) (s : State) (V : PublishVote)
    (n : PublishNotification)
    (hlock : s.lock = some V)
    (hverify : n.verify committee s.root = .ok ())
    (hseq : n.sequence_number = s.sequence_number)
    (hroot : n.root = V.root) :
    handleNotification keypair committee s n = (s, .PublishVote (.ok V)) := by
  have hVroot : V.root = n.root := hroot.symm
  have hstate : { s with lock := some V } = s := by
    cases s
    simp_all
  simp [handleNotification, make_vote, hverify, hlock, hseq, hVroot, hstate]

/-- Witness for C7: re-sending n1 to the locked-on-n1 fixture state
returns the stored vote of witness 1 and the very same state. -/
theorem notification_rebroadcast_idempotent_witness :
    handleNotification ⟨1⟩ comm0 stLocked1 n1 =
      (stLocked1, .PublishVote (.ok (voteOf n1 1))) :=
  notification_rebroadcast_idempotent ⟨1⟩ comm0 stLocked1 (voteOf n1 1) n1
    rfl (by decide) rfl (by decide)

/-- Claim C8: a notification built by PublishNotification::new has as id
the message digest of the root bytes followed by the little-endian 8-byte
sequence number, its signature verifies over the id under the IdP public
key, and consequently the id and signature checks of
PublishNotification::verify pass. -/
theorem notification_new_wellformed (root : Root) (proof : Proof)
    (sequence_number : Nat) (keypair : KeyPair) (committee : Committee)
    (hidp : committee.idp = keypair.public) :
    (PublishNotification.new root proof sequence_number keypair).id =
      sha512trunc (root.bytes ++ toLE8 sequence_number) ∧
    ((PublishNotification.new root proof sequence_number keypair).signature.verify
      (PublishNotification.new root proof sequence_number keypair).id
      keypair.public = true) ∧
    (PublishNotification.new root proof sequence_number keypair).digest =
      (PublishNotification.new root proof sequence_number keypair).id ∧
    ((PublishNotification.new root proof sequence_number keypair).signature.verify
      (PublishNotification.new root proof sequence_number keypair).id
      committee.idp = true) := by
  refine ⟨rfl, ?_, rfl, ?_⟩ <;>
    simp [PublishNotification.new, PublishNotification.digest, publishDigest,
      Signature.new, Signature.verify, hidp]

/-- Witness for C8: the fixture notification n1 carries the digest of r1
at sequence 1 as id and an IdP signature that verifies over it. -/
theorem notification_new_wellformed_witness :
    comm0.idp = kpIdp.public ∧
    (n1.id = sha512trunc (r1.bytes ++ toLE8 1) ∧
     n1.signature.verify n1.id kpIdp.public = true ∧
     n1.digest = n1.id ∧
     n1.signature.verify n1.id comm0.idp = true) :=
  ⟨rfl, notification_new_wellformed r1 ⟨r0, r1⟩ 1 kpIdp comm0 rfl⟩

/-- Claim C10: messages agreeing on root and sequence number share one
digest: a vote built from a notification has the digest of that
notification, a certificate with the same root and sequence number has it
too, and a certificate accepted by PublishCertificate::verify passed the
batch signature check over exactly that shared digest. -/
theorem digest_agreement (n : PublishNotification) (keypair : KeyPair)
    (c : PublishCertificate) (committee : Committee)
    (hroot : c.root = n.root) (hseq : c.sequence_number = n.sequence_number) :
    (PublishVote.new n keypair).digest = n.digest ∧
    c.digest = n.digest ∧
    (c.verify committee = .ok () →
      Signature.verify_batch n.digest c.votes = true) := by
  have hd : c.digest = n.digest := by
    simp [PublishCertificate.digest, PublishNotification.digest, hroot, hseq]
  refine ⟨rfl, hd, ?_⟩
  intro hver
  rw [← hd]
  unfold PublishCertificate.verify at hver
  cases hcv : checkVotes committee c.votes [] 0 with
  | error e => rw [hcv] at hver; simp at hver
  | ok w =>
    rw [hcv] at hver
    by_cases hq : w ≥ committee.quorum_threshold
    · simp only [hq, if_true] at hver
      by_cases hb : Signature.verify_batch c.digest c.votes
      · exact hb
      · simp [hb] at hver
    · simp [hq] at hver

/-- Witness for C10: the fixture vote and certificate for r1 at sequence 1
share the digest of notification n1, and cert1 passes the batch check
over it. -/
theorem digest_agreement_witness :
    (PublishVote.new n1 ⟨1⟩).digest = n1.digest ∧
    cert1.digest = n1.digest ∧
    (cert1.verify comm0 = .ok () →
      Signature.verify_batch n1.digest cert1.votes = true) :=
  digest_agreement n1 ⟨1⟩ cert1 comm0 (by decide) (by decide)

/-- Claim C4 counterexample: appending a vote whose author is a fresh
committee member but whose signature is invalid returns an error, yet the
aggregator state is mutated: the author is left in the used set. -/
theorem aggregator_append_mutates_on_error :
    ((Aggregator.new comm0 r1).append zeroSigVote).2 =
      .error (.MessageError .InvalidSignature) ∧
    ((Aggregator.new comm0 r1).append zeroSigVote).1.used = [1] ∧
    (Aggregator.new comm0 r1).used = [] ∧
    ((Aggregator.new comm0 r1).append zeroSigVote).1 ≠
      Aggregator.new comm0 r1 := by decide

/-- Claim C4 (amended): append returns an error exactly when the root
differs, the author has no voting power, the author already contributed,
or the individual signature check fails; in the first three error cases
the aggregator is unchanged, while in the signature-failure case the
weight and collected votes are unchanged but the author has already been
inserted into the used set. -/
theorem aggregator_append_error_cases (agg : Aggregator) (vote : PublishVote) :
    (exceptIsOk (agg.append vote).2 = false ↔
      (agg.root ≠ vote.root ∨ agg.committee.voting_power vote.author = 0 ∨
       vote.author ∈ agg.used ∨ vote.verify agg.committee ≠ .ok ())) ∧
    ((agg.root ≠ vote.root ∨ agg.committee.voting_power vote.author = 0 ∨
      vote.author ∈ agg.used) → (agg.append vote).1 = agg) ∧
    ((agg.root = vote.root ∧ 0 < agg.committee.voting_power vote.author ∧
      vote.author ∉ agg.used ∧ vote.verify agg.committee ≠ .ok ()) →
      exceptIsOk (agg.append vote).2 = false ∧
      (agg.append vote).1 = { agg with used := vote.author :: agg.used }) := by
  unfold Aggregator.append
  by_cases h1 : agg.root = vote.root
  · by_cases h2 : agg.committee.voting_power vote.author > 0
    · have h2' : agg.committee.voting_power vote.author ≠ 0 := by omega
      by_cases h3 : vote.author ∈ agg.used
      · simp [h1, h2, h2', h3, exceptIsOk]
      · cases hv : vote.verify agg.committee with
        | error e =>
          simp [h1, h2, h2', h3, hv, exceptIsOk]
        | ok u =>
          cases u
          by_cases h4 : agg.weight + agg.committee.voting_power vote.author ≥
              agg.committee.quorum_threshold
          · simp [h1, h2, h2', h3, hv, h4, exceptIsOk]
          · simp [h1, h2, h2', h3, hv, h4, exceptIsOk]
    · have h2z : agg.committee.voting_power vote.author = 0 := by omega
      simp [h1, h2, h2z, exceptIsOk]
  · simp [h1, exceptIsOk]

/-- Witness for C4 (amended): a root-mismatching vote leaves the fixture
aggregator unchanged, and the zero-signature vote errors while adding
author 1 to the used set. -/
theorem aggregator_append_error_cases_witness :
    ((Aggregator.new comm0 r1).append (voteOf n2 1)).1 = Aggregator.new comm0 r1 ∧
    (exceptIsOk ((Aggregator.new comm0 r1).append zeroSigVote).2 = false ∧
     ((Aggregator.new comm0 r1).append zeroSigVote).1 =
       { Aggregator.new comm0 r1 with used := [1] }) :=
  ⟨(aggregator_append_error_cases (Aggregator.new comm0 r1) (voteOf n2 1)).2.1
      (Or.inl (by decide)),
   (aggregator_append_error_cases (Aggregator.new comm0 r1) zeroSigVote).2.2
      ⟨by decide, by decide, by decide, by decide⟩⟩

/-- Claim C9 counterexample: for the five-witness unit-power committee the
total power is 3f+1+k with f = 1 and k = 1, yet the quorum threshold is 4,
not 2f+1 = 3. -/
theorem thresholds_counterexample :
    totalPower comm5.witnesses = 3 * 1 + 1 + 1 ∧ (1 : Nat) < 3 ∧
    comm5.quorum_threshold = 4 ∧ comm5.quorum_threshold ≠ 2 * 1 + 1 := by
  decide

/-- Claim C9 (amended): quorum_threshold returns the floor of 2Σw/3 plus
one and validity_threshold returns the ceiling of Σw/3 (the unique v with
Σw ≤ 3v < Σw + 3); for Σw = 3f+1+k with k < 3 they equal 2f+1+k and f+1,
and the quorum threshold equals 2f+1 exactly in the k = 0 case. -/
theorem thresholds_formulae (c : Committee) (f k : Nat) (hk : k < 3)
    (hT : totalPower c.witnesses = 3 * f + 1 + k) :
    c.quorum_threshold = 2 * totalPower c.witnesses / 3 + 1 ∧
    c.validity_threshold = (totalPower c.witnesses + 2) / 3 ∧
    (totalPower c.witnesses ≤ 3 * c.validity_threshold ∧
     3 * c.validity_threshold < totalPower c.witnesses + 3) ∧
    c.quorum_threshold = 2 * f + 1 + k ∧
    c.validity_threshold = f + 1 ∧
    (k = 0 → c.quorum_threshold = 2 * f + 1) := by
  unfold Committee.quorum_threshold Committee.validity_threshold
  refine ⟨rfl, rfl, ⟨?_, ?_⟩, ?_, ?_, ?_⟩ <;> omega

/-- Witness for C9 (amended): the five-witness unit-power committee has
total 3·1+1+1, quorum threshold 2·1+1+1 = 4 and validity threshold 2. -/
theorem thresholds_formulae_witness :
    (1 : Nat) < 3 ∧ totalPower comm5.witnesses = 3 * 1 + 1 + 1 ∧
    (comm5.quorum_threshold = 2 * totalPower comm5.witnesses / 3 + 1 ∧
     comm5.validity_threshold = (totalPower comm5.witnesses + 2) / 3 ∧
     (totalPower comm5.witnesses ≤ 3 * comm5.validity_threshold ∧
      3 * comm5.validity_threshold < totalPower comm5.witnesses + 3) ∧
     comm5.quorum_threshold = 2 * 1 + 1 + 1 ∧
     comm5.validity_threshold = 1 + 1 ∧
     (1 = 0 → comm5.quorum_threshold = 2 * 1 + 1)) :=
  ⟨by decide, by decide, thresholds_formulae comm5 1 1 (by decide) (by decide)⟩

/-- With an empty counter map the send loop issues one send per missing
sequence number and leaves the map empty: the in-progress bound is never
consulted. -/
theorem updateLoop_nil_counters (target : PublicKey) (seqs : List Nat)
    (sends : Nat) : updateLoop target seqs [] sends = (sends + seqs.length, []) := by
  induction seqs generalizing sends with
  | nil => simp [updateLoop]
  | cons s rest ih => simp [updateLoop, lookupCounter, ih]; omega

/-- No transition of the synchronizer loop ever inserts an entry into the
updates_in_progress map: from an empty map it stays empty. -/
theorem syncStep_counters_nil (st : SyncState) (e : SyncEvent)
    (h : st.updates_in_progress = []) :
    (syncStep st e).updates_in_progress = [] := by
  cases e with
  | Trigger target ws =>
    unfold syncStep Synchronizer.update
    cases haddr : st.committee.witness_address target <;>
      simp [haddr, h, updateLoop_nil_counters]
  | NewCert s => simpa [syncStep] using h
  | Resolved name => simp [syncStep, h, decCounter]

/-- In every reachable state of the synchronizer the updates_in_progress
map is empty, so the MAX_PENDING_UPDATES window can never take effect. -/
theorem sync_reachable_counters_nil (committee : Committee)
    (events : List SyncEvent) :
    (events.foldl syncStep ⟨committee, 0, []⟩).updates_in_progress = [] := by
  suffices h : ∀ st : SyncState, st.updates_in_progress = [] →
      (events.foldl syncStep st).updates_in_progress = [] from h _ rfl
  induction events with
  | nil => intro st h; simpa using h
  | cons e rest ih =>
    intro st h
    exact ih _ (syncStep_counters_nil st e h)

/-- Claim C3 is violated by the code: from the reachable synchronizer
state in which certificate 150 has been persisted, a single sync trigger
for witness 1 at sequence 1 issues 150 update sends at once, none of them
resolved, while the counter map stays empty; the per-witness bound
MAX_PENDING_UPDATES = 100 is dead because no entry is ever inserted into
the map that Synchronizer::update consults through get_mut. -/
theorem synchronizer_window_unbounded :
    ([SyncEvent.NewCert 150].foldl syncStep ⟨comm0, 0, []⟩).updates_in_progress
        = [] ∧
    Synchronizer.update ([SyncEvent.NewCert 150].foldl syncStep ⟨comm0, 0, []⟩)
        1 1 =
      some (150, [SyncEvent.NewCert 150].foldl syncStep ⟨comm0, 0, []⟩) ∧
    MAX_PENDING_UPDATES < 150 := by decide

theorem totalPower_nil : totalPower [] = 0 := rfl

theorem totalPower_cons (e : PublicKey × Witness) (cs : List (PublicKey × Witness)) :
    totalPower (e :: cs) = e.2.voting_power + totalPower cs := by
  simp [totalPower]

/-- Dropping the entries of one key never increases the total power. -/
theorem totalPower_dropKey_le (a : PublicKey) (cs : List (PublicKey × Witness)) :
    totalPower (dropKey a cs) ≤ totalPower cs := by
  induction cs with
  | nil => simp [dropKey]
  | cons e rest ih =>
    obtain ⟨k, w⟩ := e
    by_cases h : k = a <;> simp [dropKey, h, totalPower_cons] <;> omega

/-- The power of one witness plus the total power of the remaining entries
is at most the total power. -/
theorem power_dropKey_le (cs : List (PublicKey × Witness)) (a : PublicKey) :
    powerOf (lookupWitness cs a) + totalPower (dropKey a cs) ≤ totalPower cs := by
  induction cs with
  | nil => simp [lookupWitness, powerOf, dropKey]
  | cons e rest ih =>
    obtain ⟨k, w⟩ := e
    by_cases h : k = a
    · subst h
      have hf := totalPower_dropKey_le k rest
      simp [lookupWitness, powerOf, dropKey, totalPower_cons]
      omega
    · simp [lookupWitness, h, dropKey, totalPower_cons]
      omega

/-- Lookup of a different key is unaffected by dropping one key. -/
theorem lookup_dropKey_ne (cs : List (PublicKey × Witness)) (a b : PublicKey)
    (h : b ≠ a) :
    lookupWitness (dropKey a cs) b = lookupWitness cs b := by
  induction cs with
  | nil => simp [dropKey]
  | cons e rest ih =>
    obtain ⟨k, w⟩ := e
    by_cases hk : k = a
    · subst hk
      have hkb : ¬ k = b := fun hkb => h (hkb ▸ rfl)
      simp [dropKey, lookupWitness, hkb, ih]
    · by_cases hkb : k = b <;> simp [dropKey, lookupWitness, hk, hkb, ih, h]

/-- The summed voting power of distinct authors never exceeds the total
power of the committee. -/
theorem usedPower_le_total (c : Committee) (us : List PublicKey)
    (h : us.Nodup) :
    (us.map c.voting_power).sum ≤ totalPower c.witnesses := by
  suffices hgen : ∀ us : List PublicKey, ∀ cs : List (PublicKey × Witness),
      us.Nodup →
      (us.map fun a => powerOf (lookupWitness cs a)).sum ≤ totalPower cs by
    have := hgen us c.witnesses h
    simpa [Committee.voting_power] using this
  intro us
  induction us with
  | nil => intro cs _; simp
  | cons a tl ih =>
    intro cs hus
    have hnd := List.nodup_cons.mp hus
    have hmap : (tl.map fun b => powerOf (lookupWitness cs b)) =
        tl.map fun b => powerOf (lookupWitness (dropKey a cs) b) := by
      apply List.map_congr_left
      intro b hb
      rw [lookup_dropKey_ne cs a b (fun hba => hnd.1 (hba ▸ hb))]
    simp only [List.map_cons, List.sum_cons, hmap]
    have h1 := ih (dropKey a cs) hnd.2
    have h2 := power_dropKey_le cs a
    omega

/-- The quorum threshold is a strict majority of the total voting power. -/
theorem totalPower_lt_two_quorum (c : Committee) :
    totalPower c.witnesses < 2 * c.quorum_threshold := by
  unfold Committee.quorum_threshold
  omega

/-- A reset aggregator satisfies the invariant, uncertified. -/
theorem aggInv_reset (agg : Aggregator) (root : Root) :
    AggInv (agg.reset root) false := by
  simp [AggInv, Aggregator.reset, usedPower]

/-- Append on a root mismatch: error, state untouched. -/
theorem append_root_ne (agg : Aggregator) (vote : PublishVote)
    (h1 : ¬ agg.root = vote.root) :
    agg.append vote = (agg, .error (.UnexpectedVote agg.root vote.root)) := by
  simp [Aggregator.append, h1]

/-- Append of an unknown witness: error, state untouched. -/
theorem append_unknown (agg : Aggregator) (vote : PublishVote)
    (h1 : agg.root = vote.root)
    (h2 : ¬ agg.committee.voting_power vote.author > 0) :
    agg.append vote =
      (agg, .error (.MessageError (.UnknownWitness vote.author))) := by
  simp [Aggregator.append, h1, h2]

/-- Append of a repeated author: error, state untouched. -/
theorem append_reuse (agg : Aggregator) (vote : PublishVote)
    (h1 : agg.root = vote.root)
    (h2 : agg.committee.voting_power vote.author > 0)
    (h3 : vote.author ∈ agg.used) :
    agg.append vote =
      (agg, .error (.MessageError (.WitnessReuse vote.author))) := by
  simp [Aggregator.append, h1, h2, h3]

/-- Append of a fresh author whose vote fails verification: error, but the
author is left in the used set. -/
theorem append_badsig (agg : Aggregator) (vote : PublishVote) (e : MessageError)
    (h1 : agg.root = vote.root)
    (h2 : agg.committee.voting_power vote.author > 0)
    (h3 : vote.author ∉ agg.used)
    (hv : vote.verify agg.committee = .error e) :
    agg.append vote =
      ({ agg with used := vote.author :: agg.used },
       .error (.MessageError e)) := by
  simp [Aggregator.append, h1, h2, h3, hv]

/-- Successful append reaching the quorum: the weight is zeroed and the
certificate is emitted. -/
theorem append_ok_quorum (agg : Aggregator) (vote : PublishVote)
    (h1 : agg.root = vote.root)
    (h2 : agg.committee.voting_power vote.author > 0)
    (h3 : vote.author ∉ agg.used)
    (hv : vote.verify agg.committee = .ok ())
    (h4 : agg.weight + agg.committee.voting_power vote.author ≥
      agg.committee.quorum_threshold) :
    agg.append vote =
      ({ agg with
          used := vote.author :: agg.used,
          votes := agg.votes ++ [(vote.author, vote.signature)],
          weight := 0 },
       .ok (some { root := vote.root, sequence_number := vote.sequence_number,
                   votes := agg.votes ++ [(vote.author, vote.signature)] })) := by
  simp [Aggregator.append, h1, h2, h3, hv, h4]

/-- Successful append below the quorum: the weight accumulates and no
certificate is emitted. -/
theorem append_ok_below (agg : Aggregator) (vote : PublishVote)
    (h1 : agg.root = vote.root)
    (h2 : agg.committee.voting_power vote.author > 0)
    (h3 : vote.author ∉ agg.used)
    (hv : vote.verify agg.committee = .ok ())
    (h4 : ¬ agg.weight + agg.committee.voting_power vote.author ≥
      agg.committee.quorum_threshold) :
    agg.append vote =
      ({ agg with
          used := vote.author :: agg.used,
          votes := agg.votes ++ [(vote.author, vote.signature)],
          weight := agg.weight + agg.committee.voting_power vote.author },
       .ok none) := by
  simp [Aggregator.append, h1, h2, h3, hv, h4]

/-- One append call preserves the aggregator invariant, with the certified
flag absorbing a newly produced certificate. -/
theorem aggInv_step (agg : Aggregator) (vote : PublishVote) (b : Bool)
    (h : AggInv agg b) : AggInv (agg.step vote) (b || producesCert agg vote) := by
  obtain ⟨hnd, hpos, hwt, hwf⟩ := h
  by_cases h1 : agg.root = vote.root
  · by_cases h2 : agg.committee.voting_power vote.author > 0
    · by_cases h3 : vote.author ∈ agg.used
      · have hp : producesCert agg vote = false := by
          unfold producesCert
          rw [append_reuse agg vote h1 h2 h3]
        have hs : agg.step vote = agg := by
          unfold Aggregator.step
          rw [append_reuse agg vote h1 h2 h3]
        rw [hp, hs, Bool.or_false]
        exact ⟨hnd, hpos, hwt, hwf⟩
      · cases hv : vote.verify agg.committee with
        | error e =>
          have hp : producesCert agg vote = false := by
            unfold producesCert
            rw [append_badsig agg vote e h1 h2 h3 hv]
          have hs : agg.step vote = { agg with used := vote.author :: agg.used } := by
            unfold Aggregator.step
            rw [append_badsig agg vote e h1 h2 h3 hv]
          rw [hp, hs, Bool.or_false]
          refine ⟨List.nodup_cons.mpr ⟨h3, hnd⟩, ?_, ?_, ?_⟩
          · intro x hx
            rcases List.mem_cons.mp hx with hx | hx
            · subst hx; exact h2
            · exact hpos x hx
          · intro hb
            have := hwt hb
            show agg.weight + agg.committee.quorum_threshold ≤
              ((vote.author :: agg.used).map agg.committee.voting_power).sum
            simp only [List.map_cons, List.sum_cons]
            simp only [usedPower] at this
            omega
          · intro hb
            have := hwf hb
            show agg.weight ≤
              ((vote.author :: agg.used).map agg.committee.voting_power).sum
            simp only [List.map_cons, List.sum_cons]
            simp only [usedPower] at this
            omega
        | ok u =>
          cases u
          by_cases h4 : agg.weight + agg.committee.voting_power vote.author ≥
              agg.committee.quorum_threshold
          · have hp : producesCert agg vote = true := by
              unfold producesCert
              rw [append_ok_quorum agg vote h1 h2 h3 hv h4]
            have hs : agg.step vote =
                { agg with
                  used := vote.author :: agg.used,
                  votes := agg.votes ++ [(vote.author, vote.signature)],
                  weight := 0 } := by
              unfold Aggregator.step
              rw [append_ok_quorum agg vote h1 h2 h3 hv h4]
            rw [hp, hs, Bool.or_true]
            refine ⟨List.nodup_cons.mpr ⟨h3, hnd⟩, ?_, ?_, ?_⟩
            · intro x hx
              rcases List.mem_cons.mp hx with hx | hx
              · subst hx; exact h2
              · exact hpos x hx
            · intro _
              show 0 + agg.committee.quorum_threshold ≤
                ((vote.author :: agg.used).map agg.committee.voting_power).sum
              simp only [List.map_cons, List.sum_cons]
              cases b with
              | false =>
                have := hwf rfl
                simp only [usedPower] at this
                omega
              | true =>
                have := hwt rfl
                simp only [usedPower] at this
                omega
            · intro hb
              exact absurd hb (by simp)
          · have hp : producesCert agg vote = false := by
              unfold producesCert
              rw [append_ok_below agg vote h1 h2 h3 hv h4]
            have hs : agg.step vote =
                { agg with
                  used := vote.author :: agg.used,
                  votes := agg.votes ++ [(vote.author, vote.signature)],
                  weight := agg.weight + agg.committee.voting_power vote.author } := by
              unfold Aggregator.step
              rw [append_ok_below agg vote h1 h2 h3 hv h4]
            rw [hp, hs, Bool.or_false]
            refine ⟨List.nodup_cons.mpr ⟨h3, hnd⟩, ?_, ?_, ?_⟩
            · intro x hx
              rcases List.mem_cons.mp hx with hx | hx
              · subst hx; exact h2
              · exact hpos x hx
            · intro hb
              have := hwt hb
              show agg.weight + agg.committee.voting_power vote.author +
                  agg.committee.quorum_threshold ≤
                ((vote.author :: agg.used).map agg.committee.voting_power).sum
              simp only [List.map_cons, List.sum_cons]
              simp only [usedPower] at this
              omega
            · intro hb
              have := hwf hb
              show agg.weight + agg.committee.voting_power vote.author ≤
                ((vote.author :: agg.used).map agg.committee.voting_power).sum
              simp only [List.map_cons, List.sum_cons]
              simp only [usedPower] at this
              omega
    · have hp : producesCert agg vote = false := by
        unfold producesCert
        rw [append_unknown agg vote h1 h2]
      have hs : agg.step vote = agg := by
        unfold Aggregator.step
        rw [append_unknown agg vote h1 h2]
      rw [hp, hs, Bool.or_false]
      exact ⟨hnd, hpos, hwt, hwf⟩
  · have hp : producesCert agg vote = false := by
      unfold producesCert
      rw [append_root_ne agg vote h1]
    have hs : agg.step vote = agg := by
      unfold Aggregator.step
      rw [append_root_ne agg vote h1]
    rw [hp, hs, Bool.or_false]
    exact ⟨hnd, hpos, hwt, hwf⟩

/-- Once the invariant holds with the certified flag set, no further
append can produce a certificate: the remaining committee power cannot
reach the quorum a second time. -/
theorem no_cert_when_certified (agg : Aggregator) (vote : PublishVote)
    (h : AggInv agg true) : producesCert agg vote = false := by
  obtain ⟨hnd, hpos, hwt, _⟩ := h
  have hw := hwt rfl
  by_cases h1 : agg.root = vote.root
  · by_cases h2 : agg.committee.voting_power vote.author > 0
    · by_cases h3 : vote.author ∈ agg.used
      · unfold producesCert
        rw [append_reuse agg vote h1 h2 h3]
      · cases hv : vote.verify agg.committee with
        | error e =>
          unfold producesCert
          rw [append_badsig agg vote e h1 h2 h3 hv]
        | ok u =>
          cases u
          by_cases h4 : agg.weight + agg.committee.voting_power vote.author ≥
              agg.committee.quorum_threshold
          · exfalso
            have hnd' : (vote.author :: agg.used).Nodup :=
              List.nodup_cons.mpr ⟨h3, hnd⟩
            have hle := usedPower_le_total agg.committee
              (vote.author :: agg.used) hnd'
            have h2q := totalPower_lt_two_quorum agg.committee
            simp only [List.map_cons, List.sum_cons] at hle
            simp only [usedPower] at hw
            omega
          · unfold producesCert
            rw [append_ok_below agg vote h1 h2 h3 hv h4]
    · unfold producesCert
      rw [append_unknown agg vote h1 h2]
  · unfold producesCert
    rw [append_root_ne agg vote h1]

/-- The invariant propagates along any run of appends; the certified flag
can only go from false to true. -/
theorem aggInv_runVotes (agg : Aggregator) (vs : List PublishVote) (b : Bool)
    (h : AggInv agg b) :
    ∃ b2, (b = true → b2 = true) ∧ AggInv (agg.runVotes vs) b2 := by
  induction vs generalizing agg b with
  | nil => exact ⟨b, fun x => x, by simpa [Aggregator.runVotes] using h⟩
  | cons v vs ih =>
    have h2 := aggInv_step agg v b h
    obtain ⟨b2, himp, hinv⟩ := ih (agg.step v) (b || producesCert agg v) h2
    refine ⟨b2, fun hb => himp (by simp [hb]), ?_⟩
    simpa [Aggregator.runVotes] using hinv

/-- Claim C5: a certificate is emitted exactly at the first successful
append whose accumulated voting power reaches the quorum threshold: any
fresh, verified vote pushing the weight to the threshold makes append
return a certificate, and once one certificate has been produced after a
reset (here at v1, after absorbing the votes vs1), no later append (of v2,
after further absorbing vs2) can produce another before the next reset. -/
theorem aggregator_quorum_once (agg0 : Aggregator) (root : Root)
    (vs1 : List PublishVote) (v1 : PublishVote) (vs2 : List PublishVote)
    (v2 : PublishVote)
    (h1 : producesCert ((agg0.reset root).runVotes vs1) v1 = true) :
    (∀ agg : Aggregator, ∀ v : PublishVote, agg.root = v.root →
      agg.committee.voting_power v.author > 0 → v.author ∉ agg.used →
      v.verify agg.committee = .ok () →
      agg.weight + agg.committee.voting_power v.author ≥
        agg.committee.quorum_threshold →
      producesCert agg v = true) ∧
    producesCert
      ((((agg0.reset root).runVotes vs1).step v1).runVotes vs2) v2 = false := by
  refine ⟨?_, ?_⟩
  · intro agg v ha hb hc hd he
    unfold producesCert
    rw [append_ok_quorum agg v ha hb hc hd he]
  obtain ⟨b, _, hinv⟩ :=
    aggInv_runVotes (agg0.reset root) vs1 false (aggInv_reset agg0 root)
  cases b with
  | true =>
    exact absurd h1 (by simp [no_cert_when_certified _ v1 hinv])
  | false =>
    have h2 := aggInv_step _ v1 false hinv
    rw [h1] at h2
    simp only [Bool.false_or] at h2
    obtain ⟨b2, himp, hinv2⟩ := aggInv_runVotes _ vs2 true h2
    have hb2 : b2 = true := himp rfl
    subst hb2
    exact no_cert_when_certified _ v2 hinv2

/-- Witness for C5: with the four-witness fixture committee, the votes of
witnesses 1 and 2 followed by the vote of witness 3 produce the quorum
certificate, and the subsequent vote of witness 4 produces none. -/
theorem aggregator_quorum_once_witness :
    producesCert (((Aggregator.new comm0 r0).reset r1).runVotes
        [voteOf n1 1, voteOf n1 2]) (voteOf n1 3) = true ∧
    producesCert
      (((((Aggregator.new comm0 r0).reset r1).runVotes
          [voteOf n1 1, voteOf n1 2]).step (voteOf n1 3)).runVotes [])
      (voteOf n1 4) = false :=
  ⟨(aggregator_quorum_once (Aggregator.new comm0 r0) r1
      [voteOf n1 1, voteOf n1 2] (voteOf n1 3) [] (voteOf n1 4) (by decide)).1
      (((Aggregator.new comm0 r0).reset r1).runVotes [voteOf n1 1, voteOf n1 2])
      (voteOf n1 3) (by decide) (by decide) (by decide) (by decide) (by decide),
   (aggregator_quorum_once (Aggregator.new comm0 r0) r1
      [voteOf n1 1, voteOf n1 2] (voteOf n1 3) [] (voteOf n1 4) (by decide)).2⟩

end KeyTransparency

